import Mathlib

set_option maxRecDepth 16384

/-!
Verification of the checkpoint store of `src/utils/checkpoint_manager.py`
(class `CheckpointManager`).

The embedding is a shallow state model of the on-disk store:

* a live checkpoint directory (`MState.files`) holding one entry per file
  name, with a modification time, excluding the registry file itself,
* the backup directory (`MState.backups`),
* the checkpoint registry (`MState.registry`), the in-memory insertion-ordered
  dict persisted by `_save_registry` (its on-disk write behaviour is modelled
  separately at micro-step granularity, see `saveRegistryDiskTrace`).

Modelling conventions, each anchored to the Python source:

* Payload (`data`) and metadata are opaque serialisable blobs; the store never
  inspects them, so they are modelled by their canonical serialisation
  (a `String`).
* Timestamps: `datetime.now().isoformat()` produces fixed-shape strings whose
  lexicographic order coincides with chronological order, so timestamps are
  carried as `Nat` clock ticks; wherever the code embeds the isoformat string
  into another string (the checksum serialisation and the id digest input),
  the tick is rendered through `isoTimestamp`, a fixed-width rendering that
  preserves the properties the isoformat shape gives the code — in
  particular, concatenating a stage name with the rendered timestamp never
  shifts component boundaries.  The several `datetime.now()` calls inside one
  `save_checkpoint` invocation are collapsed into the single clock value `t`
  passed to the operation; two calls with the same `t` collide on the
  second-resolution file name exactly like two Python calls within one
  wall-clock second.
* `hashlib.sha256(x).hexdigest()` is an external primitive; it is modelled by
  the stand-in `sha256hex`, which, like the real digest, lets every character
  of the input influence the 12-character prefix the code keeps.  No theorem
  below relies on any property of the digest beyond it being a function of
  its input.
* The built-in `hash(str(data))` is, per the CPython documentation, a
  function of the string and of a hash seed drawn once per process
  (PYTHONHASHSEED); it is modelled by the stand-in `pyHashStrSeeded`, which
  realises exactly that interface, with `processHashSeed` the seed of the
  process under analysis.  Only this seed-and-string functionality is used.
* Python string slicing `s[:n]` and `s[n:]` is character-based and is
  modelled at the character-list level (`strTake`, `strDrop`).
-/

/-- A parsed checkpoint JSON document, exactly the keys written by
`save_checkpoint` (lines 27-40): stage, data, metadata, timestamp,
previous_checkpoint, checkpoint_id, checksum. -/
structure Checkpoint where
  stage : String
  data : String
  metadata : String
  timestamp : Nat
  previous_checkpoint : Option String
  checkpoint_id : String
  checksum : String
deriving DecidableEq, Repr

/-- Content of a file on disk: either a well-formed checkpoint document or
bytes that fail to parse as one (covering both `json.load` failure and a
document without the keys the loader reads). -/
inductive FileContent where
  | valid (cp : Checkpoint)
  | garbage (bytes : String)
deriving DecidableEq, Repr

/-- A directory entry: file name, content, and modification time (used by the
`st_mtime` orderings in `_backup_previous_checkpoint`, `_restore_from_backup`
and `prune_old_checkpoints`). -/
structure FileEntry where
  name : String
  content : FileContent
  mtime : Nat
deriving DecidableEq, Repr

/-- A registry value as written by `_update_registry` (lines 284-291):
exactly the keys file, stage, timestamp.  Note there is no checkpoint_id
key; `get_latest_checkpoint_id` nevertheless reads one. -/
structure RegEntry where
  file : String
  stage : String
  timestamp : Nat
deriving DecidableEq, Repr

/-- The manager state: live checkpoint directory (minus the registry file),
backup directory, and the registry dict. -/
structure MState where
  files : List FileEntry
  backups : List FileEntry
  registry : List (String × RegEntry)
deriving DecidableEq, Repr

/-- Python exceptions surfaced by the modelled code paths. -/
inductive PyErr where
  | keyError
deriving DecidableEq, Repr

/-- Python `s[:n]`: the first n characters. -/
def strTake (s : String) (n : Nat) : String := String.mk (s.data.take n)

/-- Python `s[n:]`: all but the first n characters. -/
def strDrop (s : String) (n : Nat) : String := String.mk (s.data.drop n)

/-- Stand-in for `hashlib.sha256(x.encode()).hexdigest()`: a marker
character followed by the decimal rendering of a mixing fold over the input
characters, reduced modulo 10^11 so that — as with the real digest — every
character of the input influences the 12-character prefix that
`_generate_checkpoint_id` keeps.  The development only uses that the digest
is a function of its input. -/
def sha256hex (s : String) : String :=
  String.mk ('h' ::
    (toString (s.data.foldl (fun h c => (h * 1664525 + c.toNat + 1013904223) % (10 ^ 11)) 0)).data)

/-- Stand-in for the CPython built-in `hash` applied to a string: per the
CPython documentation the str hash is keyed by a per-process seed
(PYTHONHASHSEED), so it is a function of that seed and the string — the
interface this definition realises.  Only that functionality is used
below. -/
def pyHashStrSeeded (seed : Nat) (s : String) : Nat :=
  s.data.foldl (fun h c => (h * 31 + c.toNat) % (10 ^ 9)) seed

/-- The hash seed of the single process under analysis: an arbitrary fixed
value, since all in-process theorems hold for every seed. -/
def processHashSeed : Nat := 0

/-- Python `s.startswith(pre)` at the character level. -/
def strStartsWith (s pre : String) : Bool := pre.data.isPrefixOf s.data

/-- Python `s.endswith(suf)` at the character level. -/
def strEndsWith (s suf : String) : Bool := suf.data.isSuffixOf s.data

/-- Python `str(x)` for the optional previous-checkpoint field. -/
def optStr : Option String → String
  | none => "None"
  | some s => s

/-- Model of `datetime.now().isoformat()` as embedded into strings by the
code: a fixed-shape string such as 2024-01-01T12:00:00.123456 (26
characters, beginning with the zero-padded year).  Rendered here as the
fixed-width zero-padded decimal of the clock tick, which keeps what the
code relies on: the rendering is a function of the instant, has uniform
width and shape, and so concatenating a stage name in front of it never
shifts component boundaries (a collision such as stage a1 before tick 2
versus stage a before tick 12 is as impossible here as it is for real
isoformat strings). -/
def isoTimestamp (n : Nat) : String :=
  String.mk (List.replicate (26 - (toString n).data.length) '0' ++ (toString n).data)

/-- Canonical serialisation of a checkpoint record without its checksum
field, modelling `json.dumps(data, sort_keys=True)` in `_calculate_checksum`
(line 233): keys in sorted order, checksum excluded (the caller pops it),
the timestamp field rendered as its isoformat string. -/
def serializeNoChecksum (cp : Checkpoint) : String :=
  "checkpoint_id=" ++ cp.checkpoint_id ++ ";data=" ++ cp.data ++
  ";metadata=" ++ cp.metadata ++ ";previous_checkpoint=" ++
  optStr cp.previous_checkpoint ++ ";stage=" ++ cp.stage ++
  ";timestamp=" ++ isoTimestamp cp.timestamp

/-- Model of `_calculate_checksum` (lines 231-233): sha256 of the canonical
serialisation.  The checksum field itself is never part of the input. -/
def calcChecksum (cp : Checkpoint) : String := sha256hex (serializeNoChecksum cp)

/-- Model of `_generate_checkpoint_id` (lines 222-229) in a process whose
str-hash seed is the given one: joins stage, the isoformat timestamp and
`str(hash(str(data)))` with no separator, hashes, and keeps the first 12
characters of the hex digest.  Only the stage, timestamp and data fields of
the record are read — metadata and previous_checkpoint are not digested. -/
def generateCheckpointIdSeeded (seed : Nat) (cp : Checkpoint) : String :=
  strTake (sha256hex
    (cp.stage ++ isoTimestamp cp.timestamp ++ toString (pyHashStrSeeded seed cp.data))) 12

/-- The checkpoint id as computed in the process under analysis. -/
def generateCheckpointId (cp : Checkpoint) : String :=
  generateCheckpointIdSeeded processHashSeed cp

/-- Dict lookup `self.registry[cid]` / `cid in self.registry`. -/
def regGet (reg : List (String × RegEntry)) (k : String) : Option RegEntry :=
  (reg.find? (fun p => p.1 == k)).map Prod.snd

/-- Dict update `self.registry[cid] = entry`: replace in place if the key
exists, else append (Python dict insertion order). -/
def regPut (reg : List (String × RegEntry)) (k : String) (v : RegEntry) :
    List (String × RegEntry) :=
  if reg.any (fun p => p.1 == k) then
    reg.map (fun p => if p.1 == k then (k, v) else p)
  else reg ++ [(k, v)]

/-- Writing a file with `open(name, 'w')` (or `shutil.copy2` / `shutil.move`
to that name): overwrite the entry of that name if present, else create it. -/
def putFile (dir : List FileEntry) (e : FileEntry) : List FileEntry :=
  if dir.any (fun f => f.name == e.name) then
    dir.map (fun f => if f.name == e.name then e else f)
  else dir ++ [e]

/-- Reading a file: `open(path)` on the modelled directory. -/
def readFile (dir : List FileEntry) (name : String) : Option FileContent :=
  (dir.find? (fun f => f.name == name)).map (fun f => f.content)

/-- Python `max(xs, key=k)`: first element with maximal key. -/
def maxByKey {α : Type} (key : α → Nat) : List α → Option α
  | [] => none
  | x :: xs => some (xs.foldl (fun best y => if key y > key best then y else best) x)

/-- The stage filter of `get_latest_checkpoint_id` (line 88):
`not stage or cp['stage'] == stage`.  A falsy stage (None or the empty
string) matches every entry. -/
def stageFilter (stage : Option String) (e : RegEntry) : Bool :=
  match stage with
  | none => true
  | some s => if s == "" then true else e.stage == s

/-- Model of `get_latest_checkpoint_id` (lines 86-92).  When the filtered list is
nonempty the code evaluates `max(checkpoints, key=timestamp)['checkpoint_id']`;
registry values are dicts with only the keys file, stage and timestamp
(see `RegEntry` and `_update_registry`), so the lookup raises KeyError. -/
def getLatestCheckpointId (stage : Option String) (reg : List (String × RegEntry)) :
    Except PyErr (Option String) :=
  let checkpoints := (reg.map Prod.snd).filter (stageFilter stage)
  if checkpoints.isEmpty then Except.ok none
  else Except.error PyErr.keyError

/-- Glob `f"{stage}_*.json"` used by `_backup_previous_checkpoint`
(line 237): any file whose name starts with the stage followed by an
underscore and ends in .json — including files of another stage whose name
extends this stage with an underscore. -/
def globMatch (stage : String) (name : String) : Bool :=
  strStartsWith name (stage ++ "_") && strEndsWith name ".json"

/-- Model of `_backup_previous_checkpoint` (lines 235-243): copy the st_mtime-latest
file matching the stage glob into the backup directory under a backup_
prefix (`shutil.copy2` preserves the modification time); no-op when no file
matches. -/
def backupPreviousCheckpoint (stage : String) (st : MState) : MState :=
  match maxByKey (fun f => f.mtime) (st.files.filter (fun f => globMatch stage f.name)) with
  | none => st
  | some latest =>
      { st with backups := putFile st.backups ⟨"backup_" ++ latest.name, latest.content, latest.mtime⟩ }

/-- Model of `_find_checkpoint` (lines 245-256).  A truthy checkpoint_id present in
the registry resolves by id; otherwise a truthy stage resolves to the file of
the registry entry with maximal timestamp for that stage. -/
def findCheckpoint (st : MState) (stage cid : Option String) : Option String :=
  let byId : Option String :=
    match cid with
    | some c =>
        if (!(c == "")) && (regGet st.registry c).isSome then
          (regGet st.registry c).map (fun e => e.file)
        else none
    | none => none
  match byId with
  | some p => some p
  | none =>
      match stage with
      | some s =>
          if s == "" then none
          else
            (maxByKey (fun e => e.timestamp)
              ((st.registry.map Prod.snd).filter (fun e => e.stage == s))).map (fun e => e.file)
      | none => none

/-- Python `str(stage)` as interpolated by the f-string in
`_restore_from_backup`: `None` prints as the four characters None. -/
def pyStr : Option String → String
  | none => "None"
  | some s => s

/-- Model of `_restore_from_backup` (lines 258-267): find the st_mtime-latest backup
matching `f"backup_{stage}_*.json"`, copy it into the live directory under
the name `latest_backup.name[6:]` (the comment says it strips the backup_
prefix, but backup_ is seven characters and the slice drops six, so the
restored name keeps a leading underscore), and return the restored name;
return none (with no copy) when no backup matches. -/
def restoreFromBackup (st : MState) (stage : Option String) : Option String × MState :=
  let pat := "backup_" ++ pyStr stage ++ "_"
  let hits := st.backups.filter (fun f => strStartsWith f.name pat && strEndsWith f.name ".json")
  match maxByKey (fun f => f.mtime) hits with
  | none => (none, st)
  | some latest =>
      let restored := strDrop latest.name 6
      (some restored, { st with files := putFile st.files ⟨restored, latest.content, latest.mtime⟩ })

/-- Model of `load_checkpoint` (lines 57-84).  Returns (result, final state, number of
successful backup restores performed).  One unit of fuel is one activation of
`load_checkpoint`; the Python source recurses with no bound of its own (only
the interpreter recursion limit), restoring from backup before every retry,
so the restore count grows with the permitted depth.  The retry at line 83
passes only the stage, dropping the checkpoint id. -/
def loadCheckpoint : Nat → MState → Option String → Option String →
    Option Checkpoint × MState × Nat
  | 0, st, _, _ => (none, st, 0)
  | fuel + 1, st, stage, cid =>
    match findCheckpoint st stage cid with
    | none => (none, st, 0)
    | some path =>
      let failRec : Option Checkpoint × MState × Nat :=
        match restoreFromBackup st stage with
        | (some _, st1) =>
            let r := loadCheckpoint fuel st1 stage none
            (r.1, r.2.1, r.2.2 + 1)
        | (none, st1) => (none, st1, 0)
      match readFile st.files path with
      | some (FileContent.valid cp) =>
          if cp.checksum == calcChecksum cp then (some cp, st, 0) else failRec
      | some (FileContent.garbage _) => failRec
      | none => failRec

/-- The checkpoint dict as first constructed by `save_checkpoint`
(lines 27-33), before the id and checksum are added. -/
def saveRecordBase (stage data metadata : String) (t : Nat) (prev : Option String) : Checkpoint :=
  { stage := stage, data := data, metadata := metadata, timestamp := t,
    previous_checkpoint := prev, checkpoint_id := "", checksum := "" }

/-- The finished checkpoint record of `save_checkpoint` (lines 35-40): the
id is generated from the base dict, then the checksum is computed over the
record including the id. -/
def saveRecord (stage data metadata : String) (t : Nat) (prev : Option String) : Checkpoint :=
  let cp1 := { saveRecordBase stage data metadata t prev with
               checkpoint_id := generateCheckpointId (saveRecordBase stage data metadata t prev) }
  { cp1 with checksum := calcChecksum cp1 }

/-- The checkpoint file name of `save_checkpoint` (line 43):
`f"{stage}_{timestamp}.json"` with a second-resolution timestamp. -/
def saveFileName (stage : String) (t : Nat) : String :=
  stage ++ "_" ++ toString t ++ ".json"

/-- The state mutation of a `save_checkpoint` call that gets past the
previous-id lookup (lines 43-53): back up the previous glob-matching file,
write the new file, register it. -/
def saveResultState (st : MState) (stage data metadata : String) (t : Nat) (prev : Option String) :
    MState :=
  let st1 := backupPreviousCheckpoint stage st
  let newFile : FileEntry :=
    ⟨saveFileName stage t, FileContent.valid (saveRecord stage data metadata t prev), t⟩
  let st2 := { st1 with files := putFile st1.files newFile }
  let newId := generateCheckpointId (saveRecordBase stage data metadata t prev)
  { st2 with registry := regPut st2.registry newId ⟨saveFileName stage t, stage, t⟩ }

/-- Model of `save_checkpoint` (lines 24-55): look up the previous checkpoint id
(which raises KeyError whenever the registry already holds an entry matching
the stage filter — see `getLatestCheckpointId`), build the record, assign the
id and checksum, back up the previous glob-matching file, write the new file,
and register it.  Returns (file name, checkpoint id, new state). -/
def saveCheckpoint (st : MState) (stage data metadata : String) (t : Nat) :
    Except PyErr (String × String × MState) :=
  match getLatestCheckpointId (some stage) st.registry with
  | Except.error e => Except.error e
  | Except.ok prev =>
      Except.ok (saveFileName stage t,
        generateCheckpointId (saveRecordBase stage data metadata t prev),
        saveResultState st stage data metadata t prev)

/-- The while loop of `get_chain_of_checkpoints` (lines 131-137): follow
previous_checkpoint backwards, prepending each loaded checkpoint.  Loads by
id with no stage; such a load finishes within two activations (a failed
retry resolves no file), so the inner fuel 2 is exact.  The outer fuel
bounds the loop, which the source does not bound. -/
def getChainAux : Nat → MState → Option String → List Checkpoint → List Checkpoint × MState
  | 0, st, _, acc => (acc, st)
  | fuel + 1, st, cur, acc =>
    match cur with
    | none => (acc, st)
    | some cid =>
      let r := loadCheckpoint 2 st none (some cid)
      match r.1 with
      | none => (acc, r.2.1)
      | some cp => getChainAux fuel r.2.1 cp.previous_checkpoint (cp :: acc)

/-- Model of `get_chain_of_checkpoints` (lines 126-139): starts from
`get_latest_checkpoint_id(stage)`, so it raises KeyError whenever the stage
has any registered checkpoint. -/
def getChainOfCheckpoints (fuel : Nat) (st : MState) (stage : String) :
    Except PyErr (List Checkpoint × MState) :=
  match getLatestCheckpointId (some stage) st.registry with
  | Except.error e => Except.error e
  | Except.ok cur => Except.ok (getChainAux fuel st cur [])

/-- The chain-completeness loop of `get_stage_status` (lines 180-184): walk
adjacent pairs of the built chain and require each later checkpoint to point
at the id of the one before it. -/
def chainComplete : List Checkpoint → Bool
  | [] => true
  | [_] => true
  | a :: b :: rest =>
      (b.previous_checkpoint == some a.checkpoint_id) && chainComplete (b :: rest)

/-- The status record returned by `get_stage_status` (lines 167-193). -/
structure StageStatus where
  status : String
  checkpoint_count : Nat
  last_updated : Option Nat
  chain_complete : Bool
  chain_length : Nat
  latest_id : Option String
deriving DecidableEq, Repr

/-- Model of `get_stage_status` (lines 167-193), propagating the KeyError of the
chain construction.  The empty branch has no latest_id key; that absence is
modelled as none. -/
def getStageStatus (fuel : Nat) (st : MState) (stage : String) :
    Except PyErr (StageStatus × MState) :=
  match getChainOfCheckpoints fuel st stage with
  | Except.error e => Except.error e
  | Except.ok (cps, st1) =>
    if cps.isEmpty then
      Except.ok ({ status := "not_started", checkpoint_count := 0, last_updated := none,
                   chain_complete := true, chain_length := 0, latest_id := none }, st1)
    else
      Except.ok ({ status := "in_progress", checkpoint_count := cps.length,
                   last_updated := cps.getLast?.map (fun cp => cp.timestamp),
                   chain_complete := chainComplete cps, chain_length := cps.length,
                   latest_id := cps.getLast?.map (fun cp => cp.checkpoint_id) }, st1)

/-- Model of `rollback_to_checkpoint` (lines 141-165): fail fast on an unknown id;
verify by loading (by id, stage None — a load whose recursion ends within
two activations, hence fuel 2); on success back up the stage and drop every
registry entry of the stage with a strictly later timestamp. -/
def rollbackToCheckpoint (st : MState) (cid : String) : Bool × MState :=
  match regGet st.registry cid with
  | none => (false, st)
  | some info =>
    let r := loadCheckpoint 2 st none (some cid)
    match r.1 with
    | none => (false, r.2.1)
    | some _ =>
      let st2 := backupPreviousCheckpoint info.stage r.2.1
      (true, { st2 with registry :=
        st2.registry.filter (fun p =>
          !(p.2.stage == info.stage && p.2.timestamp > info.timestamp)) })

/-- Model of `checkpoint_file.name.split('_')[0]` (line 204): the prune grouping key
is everything before the first underscore of the file name. -/
def stageKey (name : String) : String :=
  String.mk (name.data.takeWhile (fun c => !(c == '_')))

/-- Model of `sorted(files, key=st_mtime, reverse=True)` (line 211): stable descending
sort by modification time. -/
def sortByMtimeDesc (l : List FileEntry) : List FileEntry :=
  List.insertionSort (fun a b => b.mtime ≤ a.mtime) l

/-- First-occurrence deduplication: the key order of a Python dict built by
insertion (line 200-207 grouping loop). -/
def firstKeys : List String → List String
  | [] => []
  | k :: ks => k :: (firstKeys ks).filter (fun x => !(x == k))

/-- Concatenation of the per-key lists, in key order. -/
def catMap {α β : Type} (l : List α) (g : α → List β) : List β :=
  match l with
  | [] => []
  | a :: l => g a ++ catMap l g

/-- The files `prune_old_checkpoints` moves away (lines 195-212): for every
grouping key in first-occurrence order, every file of that group beyond the
`max_per_stage` newest (stable descending mtime order). -/
def pruneRemovalList (maxPerStage : Nat) (files : List FileEntry) : List FileEntry :=
  catMap (firstKeys (files.map (fun f => stageKey f.name)))
    (fun k => (sortByMtimeDesc (files.filter (fun f => stageKey f.name == k))).drop maxPerStage)

/-- One iteration of the removal loop (lines 214-220): `shutil.move` the file
into the backup directory under a pruned_ name (preserving content and
mtime, overwriting any backup of that name) and drop every registry entry
whose file field equals the moved path. -/
def archiveOne (st : MState) (f : FileEntry) : MState :=
  { files := st.files.filter (fun g => !(g.name == f.name)),
    backups := putFile st.backups ⟨"pruned_" ++ f.name, f.content, f.mtime⟩,
    registry := st.registry.filter (fun p => !(p.2.file == f.name)) }

/-- Model of `prune_old_checkpoints` (lines 195-220): the grouping snapshot is built
before any file is moved, then the removals run one by one. -/
def pruneOldCheckpoints (maxPerStage : Nat) (st : MState) : MState :=
  (pruneRemovalList maxPerStage st.files).foldl archiveOne st

/-- On-disk states of `checkpoint_registry.json`. -/
inductive RegistryFile where
  | absent
  | truncated
  | full (r : List (String × RegEntry))
deriving DecidableEq, Repr

/-- Model of `_load_registry` (lines 269-277): an absent file yields an empty
registry; a file that fails to parse (such as one truncated mid-write)
also yields an empty registry. -/
def loadRegistryDisk : RegistryFile → List (String × RegEntry)
  | RegistryFile.absent => []
  | RegistryFile.truncated => []
  | RegistryFile.full r => r

/-- Model of `_save_registry` (lines 279-282), which writes `open(self.registry_file, 'w')`
then `json.dump(...)`: it truncates the registry file in place and then
writes the new content into the same path.  The on-disk states the registry
path passes through during the call, in order: truncated (after open, before
the dump completes), then the full new content.  There is no fresh-file
write or atomic rename. -/
def saveRegistryDiskTrace (r : List (String × RegEntry)) : List RegistryFile :=
  [RegistryFile.truncated, RegistryFile.full r]

/-- Convenience projection: the state after a save, with a fallback for the
error case (used only to name concrete evaluation states). -/
def stateAfter (r : Except PyErr (String × String × MState)) (fallback : MState) : MState :=
  match r with
  | Except.ok x => x.2.2
  | Except.error _ => fallback

/-- Whether a file content is a parsed checkpoint of the given stage. -/
def isStageCp (s : String) : FileContent → Bool
  | FileContent.valid cp => cp.stage == s
  | FileContent.garbage _ => false

/-- The empty store: fresh directories, empty registry. -/
def emptyStore : MState := ⟨[], [], []⟩

/-- A valid checkpoint record for stage s (concrete evaluation input). -/
def cpGood : Checkpoint :=
  { stage := "s", data := "good", metadata := "", timestamp := 1,
    previous_checkpoint := none, checkpoint_id := "A",
    checksum := calcChecksum ⟨"s", "good", "", 1, none, "A", ""⟩ }

/-- Store whose registered live file for stage s is corrupt while a fully
valid backup of it exists: the exact situation the spec's single
restore-and-retry policy is about. -/
def corruptWithBackupState : MState :=
  ⟨[⟨"s_1.json", FileContent.garbage "corrupt", 5⟩],
   [⟨"backup_s_1.json", FileContent.valid cpGood, 1⟩],
   [("A", ⟨"s_1.json", "s", 1⟩)]⟩

/-- Store with a registry entry whose file is missing and a backup whose
name begins backup_None_ (produced by saving a stage literally named None);
exercises the stage interpolation of `_restore_from_backup` on id-only
loads. -/
def noneBackupState : MState :=
  ⟨[], [⟨"backup_None_3.json", FileContent.garbage "g", 3⟩],
   [("c", ⟨"gone.json", "F", 1⟩)]⟩

/-- A checkpoint whose previous_checkpoint names an id absent from the
registry. -/
def cpDangling : Checkpoint :=
  { stage := "s", data := "d", metadata := "", timestamp := 2,
    previous_checkpoint := some "A", checkpoint_id := "B",
    checksum := calcChecksum ⟨"s", "d", "", 2, some "A", "B", ""⟩ }

/-- Store holding only `cpDangling`, registered under id B. -/
def danglingRefState : MState :=
  ⟨[⟨"s_2.json", FileContent.valid cpDangling, 2⟩], [],
   [("B", ⟨"s_2.json", "s", 2⟩)]⟩

/-- Checkpoint with id X and timestamp 5 (out-of-order chain input). -/
def cpEarlier : Checkpoint :=
  { stage := "s", data := "x", metadata := "", timestamp := 5,
    previous_checkpoint := none, checkpoint_id := "X",
    checksum := calcChecksum ⟨"s", "x", "", 5, none, "X", ""⟩ }

/-- Checkpoint linked to X but with a smaller timestamp. -/
def cpLater : Checkpoint :=
  { stage := "s", data := "y", metadata := "", timestamp := 3,
    previous_checkpoint := some "X", checkpoint_id := "Y",
    checksum := calcChecksum ⟨"s", "y", "", 3, some "X", "Y", ""⟩ }

/-- Stage-a checkpoint used by the backup-glob scenario. -/
def cpStageA : Checkpoint :=
  { stage := "a", data := "da", metadata := "", timestamp := 5,
    previous_checkpoint := none, checkpoint_id := "ida",
    checksum := calcChecksum ⟨"a", "da", "", 5, none, "ida", ""⟩ }

/-- Stage-a_b checkpoint whose file name a_b_7.json also matches the glob
pattern a_*.json of stage a. -/
def cpStageAB : Checkpoint :=
  { stage := "a_b", data := "dab", metadata := "", timestamp := 7,
    previous_checkpoint := none, checkpoint_id := "idab",
    checksum := calcChecksum ⟨"a_b", "dab", "", 7, none, "idab", ""⟩ }

/-- Store holding one stage-a file and one newer stage-a_b file; the a_b
file is the newest match of the glob a_*.json. -/
def globClashState : MState :=
  ⟨[⟨"a_5.json", FileContent.valid cpStageA, 5⟩,
    ⟨"a_b_7.json", FileContent.valid cpStageAB, 7⟩], [], []⟩

/-- First stage-a_b checkpoint for the pruning scenario. -/
def cpPruneB1 : Checkpoint :=
  { stage := "a_b", data := "b1", metadata := "", timestamp := 1,
    previous_checkpoint := none, checkpoint_id := "b1",
    checksum := calcChecksum ⟨"a_b", "b1", "", 1, none, "b1", ""⟩ }

/-- Second stage-a_b checkpoint for the pruning scenario. -/
def cpPruneB2 : Checkpoint :=
  { stage := "a_b", data := "b2", metadata := "", timestamp := 2,
    previous_checkpoint := some "b1", checkpoint_id := "b2",
    checksum := calcChecksum ⟨"a_b", "b2", "", 2, some "b1", "b2", ""⟩ }

/-- Store with one newer stage-a file and two older stage-a_b files; all
three share the prune grouping key a. -/
def pruneClashState : MState :=
  ⟨[⟨"a_9.json", FileContent.valid cpStageA, 9⟩,
    ⟨"a_b_1.json", FileContent.valid cpPruneB1, 1⟩,
    ⟨"a_b_2.json", FileContent.valid cpPruneB2, 2⟩], [], []⟩

/-- State after one successful save of stage test on a fresh store. -/
def oneSaveState : MState :=
  stateAfter (saveCheckpoint emptyStore "test" "d1" "m" 1) emptyStore

/-- A record variant pair differing only in metadata and bookkeeping
fields. -/
def cpMetaOne : Checkpoint :=
  { stage := "s", data := "d", metadata := "m1", timestamp := 1,
    previous_checkpoint := none, checkpoint_id := "", checksum := "" }

/-- Same stage, timestamp and data as `cpMetaOne`, different metadata and
previous pointer. -/
def cpMetaTwo : Checkpoint :=
  { stage := "s", data := "d", metadata := "m2", timestamp := 1,
    previous_checkpoint := some "x", checkpoint_id := "z", checksum := "c" }

/-- A store with a single orphaned live file for stage s (registry empty,
as after a registry corruption handled by `_load_registry`). -/
def singleFileState : MState :=
  ⟨[⟨"s_1.json", FileContent.garbage "old", 1⟩], [], []⟩

/-- A store with a registry entry whose file is missing and no backups at
all. -/
def missingFileState : MState :=
  ⟨[], [], [("c", ⟨"gone.json", "F", 1⟩)]⟩

/-- A store with two live files in one prune group and a registry entry for
the older one. -/
def pruneTwoState : MState :=
  ⟨[⟨"w_1.json", FileContent.garbage "x", 1⟩, ⟨"w_2.json", FileContent.garbage "y", 2⟩],
   [], [("i1", ⟨"w_1.json", "w", 1⟩)]⟩

/-- C3 counterexample.  `_save_registry` does not write a fresh file and
rename it over checkpoint_registry.json: interrupting the call between the
in-place truncation and the completed dump leaves the registry path in a
state (truncated) that is neither the content before the operation nor the
content after it — a mixture state the claim rules out. -/
theorem c3_registry_write_not_atomic :
    RegistryFile.truncated ∈ saveRegistryDiskTrace [] ∧
    RegistryFile.truncated ≠ RegistryFile.full [("a", ⟨"a_1.json", "a", 1⟩)] ∧
    RegistryFile.truncated ≠ RegistryFile.full [] := by
  refine ⟨?_, by decide, by decide⟩
  simp [saveRegistryDiskTrace]

/-- C3 amended.  Every registry persistence rewrites
checkpoint_registry.json in place (truncate, then dump): the write passes
through the truncated state before reaching the new full content, and a
registry file left truncated by an interruption is read back by
`_load_registry` as an empty registry. -/
theorem c3_registry_rewrite_in_place (r : List (String × RegEntry)) :
    RegistryFile.truncated ∈ saveRegistryDiskTrace r ∧
    (saveRegistryDiskTrace r).getLast? = some (RegistryFile.full r) ∧
    loadRegistryDisk RegistryFile.truncated = [] := by
  refine ⟨?_, rfl, rfl⟩
  simp [saveRegistryDiskTrace]

/-- C5 (code bug): the first save on a fresh store succeeds, but the second
save for the same stage raises KeyError inside `get_latest_checkpoint_id`
(registry values carry no checkpoint_id key), and even with a single saved
checkpoint both `get_chain_of_checkpoints` and `get_stage_status` raise the
same KeyError instead of returning the chain the claim (and the repository's
own test) describes. -/
theorem c5_chain_keyerror :
    (∃ p, saveCheckpoint emptyStore "test" "d1" "m" 1 = Except.ok p) ∧
    saveCheckpoint oneSaveState "test" "d2" "m" 2 = Except.error PyErr.keyError ∧
    getChainOfCheckpoints 3 oneSaveState "test" = Except.error PyErr.keyError ∧
    getStageStatus 3 oneSaveState "test" = Except.error PyErr.keyError :=
  ⟨⟨_, rfl⟩, rfl, rfl, rfl⟩

/-- C1 (code bug): on a store whose live checkpoint for stage s is corrupt
while a fully valid backup exists, `load_checkpoint` does not perform one
restore and one retry: the restore copies the backup to the wrong name
(_s_1.json, because the slice name[6:] drops six characters though backup_
has seven), the retried load re-reads the same corrupt registered file, and
the restore-retry cycle repeats once per permitted activation (here fuel 4
gives 4 restores; the Python source bounds the recursion only by the
interpreter limit).  The load ends with no checkpoint: the valid backup data
is never returned and no structured error is produced. -/
theorem c1_restore_retry_unbounded :
    (loadCheckpoint 4 corruptWithBackupState (some "s") none).1 = none ∧
    (loadCheckpoint 4 corruptWithBackupState (some "s") none).2.2 = 4 ∧
    readFile (loadCheckpoint 4 corruptWithBackupState (some "s") none).2.1.files "_s_1.json"
      = some (FileContent.valid cpGood) ∧
    readFile (loadCheckpoint 4 corruptWithBackupState (some "s") none).2.1.files "s_1.json"
      = some (FileContent.garbage "corrupt") :=
  ⟨rfl, rfl, rfl, rfl⟩

/-- C6 counterexample.  A stage whose only checkpoint carries an
unresolvable previous_checkpoint reference has its chain built as that
single checkpoint and the completeness loop reports the chain complete; a
two-checkpoint chain whose links match but whose timestamps are out of
creation order is also reported complete.  The claim says both situations
are reported incomplete. -/
theorem c6_incompleteness_not_detected :
    (getChainAux 3 danglingRefState (some "B") []).1 = [cpDangling] ∧
    cpDangling.previous_checkpoint = some "A" ∧
    regGet danglingRefState.registry "A" = none ∧
    chainComplete (getChainAux 3 danglingRefState (some "B") []).1 = true ∧
    chainComplete [cpEarlier, cpLater] = true ∧
    cpLater.previous_checkpoint = some cpEarlier.checkpoint_id ∧
    cpLater.timestamp < cpEarlier.timestamp :=
  ⟨rfl, rfl, rfl, rfl, rfl, rfl, by decide⟩

/-- C6 amended.  The completeness check of `get_stage_status` returns true
iff every adjacent pair (older, newer) of the chain list it is given
satisfies newer.previous_checkpoint = older.checkpoint_id; it inspects
nothing else, so truncation caused by an unresolvable reference and
out-of-order timestamps go undetected. -/
theorem c6_chain_complete_iff (l : List Checkpoint) :
    chainComplete l = true ↔
      l.Chain' (fun a b => b.previous_checkpoint = some a.checkpoint_id) := by
  induction l with
  | nil => simp [chainComplete]
  | cons a l ih =>
    cases l with
    | nil => simp [chainComplete]
    | cons b rest =>
      have hstep : chainComplete (a :: b :: rest)
          = ((b.previous_checkpoint == some a.checkpoint_id) && chainComplete (b :: rest)) := rfl
      rw [hstep, List.chain'_cons, Bool.and_eq_true, ih]
      simp [beq_iff_eq]

/-- C7 counterexample.  Rolling back to a registered id whose file is gone
returns false but mutates the live checkpoint directory: the failed
verification load interpolates the absent stage as None, finds a backup
named backup_None_3.json (left by a stage literally named None), and copies
it into the live directory before the retry fails. -/
theorem c7_failed_rollback_mutates :
    (rollbackToCheckpoint noneBackupState "c").1 = false ∧
    (rollbackToCheckpoint noneBackupState "c").2.files
      = [⟨"_None_3.json", FileContent.garbage "g", 3⟩] ∧
    (rollbackToCheckpoint noneBackupState "c").2 ≠ noneBackupState :=
  ⟨rfl, rfl, by decide⟩

/-- C10 counterexample.  An id-only load of a registry entry whose file is
missing does perform a backup restore when some backup file name matches
backup_None_*.json: one restore happens and the live directory is mutated,
though the call still returns no checkpoint.  The claim says no restore is
performed because the stage-None pattern never matches. -/
theorem c10_none_pattern_can_match :
    (loadCheckpoint 3 noneBackupState none (some "c")).1 = none ∧
    (loadCheckpoint 3 noneBackupState none (some "c")).2.2 = 1 ∧
    (loadCheckpoint 3 noneBackupState none (some "c")).2.1 ≠ noneBackupState :=
  ⟨rfl, rfl, by decide⟩

/-- C9 counterexample.  The data component of the id digest is
`str(hash(str(data)))`, and per the CPython documentation the str hash is
keyed by a seed drawn once per process: two runs of the program that
construct a checkpoint with identical stage, timestamp and data are two
processes with (in general) different seeds, and the ids they compute
differ — here exhibited for the seeds 0 and 1 on a concrete record.  The
claim's promise that any two such runs obtain the same id therefore fails;
the id is deterministic only relative to the process seed. -/
theorem c9_salted_hash_breaks_cross_run_id :
    generateCheckpointIdSeeded 0 cpMetaOne ≠ generateCheckpointIdSeeded 1 cpMetaOne ∧
    generateCheckpointId cpMetaOne = generateCheckpointIdSeeded processHashSeed cpMetaOne :=
  ⟨by decide, rfl⟩

/-- C9 amended.  Within a single process — one str-hash seed — the
checkpoint id is a deterministic function of the record's stage, creation
timestamp and data alone: for every seed, any two records agreeing on those
three fields — regardless of metadata, previous pointer or other fields —
receive the same id. -/
theorem c9_id_function_of_stage_time_data (seed : Nat) (cp1 cp2 : Checkpoint)
    (h1 : cp1.stage = cp2.stage) (h2 : cp1.timestamp = cp2.timestamp)
    (h3 : cp1.data = cp2.data) :
    generateCheckpointIdSeeded seed cp1 = generateCheckpointIdSeeded seed cp2 := by
  unfold generateCheckpointIdSeeded
  rw [h1, h2, h3]

/-- Witness for C9 amended: two concrete records differing in metadata,
previous pointer, id and checksum fields but agreeing on stage, timestamp
and data receive the same generated id. -/
theorem c9_id_function_witness :
    cpMetaOne.stage = cpMetaTwo.stage ∧ cpMetaOne.timestamp = cpMetaTwo.timestamp ∧
    cpMetaOne.data = cpMetaTwo.data ∧ cpMetaOne ≠ cpMetaTwo ∧
    generateCheckpointIdSeeded processHashSeed cpMetaOne
      = generateCheckpointIdSeeded processHashSeed cpMetaTwo :=
  ⟨rfl, rfl, rfl, by decide,
   c9_id_function_of_stage_time_data processHashSeed cpMetaOne cpMetaTwo rfl rfl rfl⟩

/-- A list whose isEmpty flag is true is nil. -/
theorem isEmpty_eq_nil {α : Type} {l : List α} (h : l.isEmpty = true) : l = [] := by
  cases l with
  | nil => rfl
  | cons a l => simp [List.isEmpty] at h

/-- The entry written by `putFile` is in the resulting directory. -/
theorem putFile_self_mem (dir : List FileEntry) (e : FileEntry) : e ∈ putFile dir e := by
  unfold putFile
  split
  · next h =>
      obtain ⟨f, hf, hfe⟩ := List.any_eq_true.mp h
      exact List.mem_map.mpr ⟨f, hf, by simp [hfe]⟩
  · exact List.mem_append.mpr (Or.inr (List.mem_singleton.mpr rfl))

/-- The function `putFile` preserves every entry whose name differs from the written
one. -/
theorem putFile_mem_of_ne {dir : List FileEntry} {e : FileEntry} (x : FileEntry)
    (hmem : e ∈ dir) (hne : ¬ e.name = x.name) : e ∈ putFile dir x := by
  unfold putFile
  have hbeq : (e.name == x.name) = false := beq_eq_false_iff_ne.mpr hne
  split
  · exact List.mem_map.mpr ⟨e, hmem, by simp [hbeq]⟩
  · exact List.mem_append.mpr (Or.inl hmem)

/-- Finding with predicate p over a list whose p-hits were all replaced by
a p-satisfying element e yields e, provided there was a hit. -/
theorem find?_map_if {α : Type} (p : α → Bool) (e : α) (hpe : p e = true) :
    ∀ l : List α, l.any p = true →
      (l.map (fun f => if p f then e else f)).find? p = some e := by
  intro l
  induction l with
  | nil => intro h; simp at h
  | cons f fs ih =>
    intro h
    by_cases hf : p f = true
    · rw [List.map_cons, if_pos hf, List.find?_cons_of_pos _ hpe]
    · have hfs : fs.any p = true := by
        rcases List.any_eq_true.mp h with ⟨g, hg, hge⟩
        rcases List.mem_cons.mp hg with rfl | hgtail
        · exact absurd hge hf
        · exact List.any_eq_true.mpr ⟨g, hgtail, hge⟩
      rw [List.map_cons, if_neg hf, List.find?_cons_of_neg _ hf]
      exact ih hfs

/-- Finding with predicate p over a list of misses followed by one
p-satisfying element yields that element. -/
theorem find?_append_last {α : Type} (p : α → Bool) (e : α) (hpe : p e = true) :
    ∀ l : List α, (∀ f ∈ l, p f = false) → (l ++ [e]).find? p = some e := by
  intro l
  induction l with
  | nil => intro _; rw [List.nil_append, List.find?_cons_of_pos _ hpe]
  | cons f fs ih =>
    intro hall
    have hf := hall f (List.mem_cons_self f fs)
    rw [List.cons_append, List.find?_cons_of_neg _ (by simp [hf])]
    exact ih (fun g hg => hall g (List.mem_cons_of_mem f hg))

/-- Looking up the just-written name finds the just-written entry. -/
theorem find?_putFile (dir : List FileEntry) (e : FileEntry) :
    (putFile dir e).find? (fun f => f.name == e.name) = some e := by
  unfold putFile
  by_cases h : dir.any (fun f => f.name == e.name) = true
  · rw [if_pos h]
    exact find?_map_if (fun f => f.name == e.name) e (by simp) dir h
  · rw [if_neg h]
    refine find?_append_last (fun f => f.name == e.name) e (by simp) dir ?_
    intro f hf
    by_contra hc
    simp only [Bool.not_eq_false] at hc
    exact h (List.any_eq_true.mpr ⟨f, hf, hc⟩)

/-- Reading back the name just written by `putFile` yields the written
content. -/
theorem readFile_putFile (dir : List FileEntry) (e : FileEntry) :
    readFile (putFile dir e) e.name = some e.content := by
  unfold readFile
  rw [find?_putFile]
  rfl

/-- Looking up the just-put key in the registry finds the just-put value. -/
theorem regGet_regPut_self (reg : List (String × RegEntry)) (k : String) (v : RegEntry) :
    regGet (regPut reg k v) k = some v := by
  unfold regGet regPut
  by_cases h : reg.any (fun p => p.1 == k) = true
  · rw [if_pos h,
      find?_map_if (fun p : String × RegEntry => p.1 == k) (k, v) (by simp) reg h]
    rfl
  · rw [if_neg h,
      find?_append_last (fun p : String × RegEntry => p.1 == k) (k, v) (by simp) reg ?misses]
    · rfl
    case misses =>
      intro q hq
      by_contra hc
      simp only [Bool.not_eq_false] at hc
      exact h (List.any_eq_true.mpr ⟨q, hq, hc⟩)

/-- The values of the updated registry are the old values possibly plus the
new one. -/
theorem mem_map_snd_regPut {reg : List (String × RegEntry)} {k : String} {v x : RegEntry}
    (hx : x ∈ (regPut reg k v).map Prod.snd) : x ∈ reg.map Prod.snd ∨ x = v := by
  unfold regPut at hx
  split at hx
  · rw [List.map_map] at hx
    obtain ⟨p, hp, hpe⟩ := List.mem_map.mp hx
    by_cases hpk : (p.1 == k) = true
    · right
      simpa [Function.comp, hpk] using hpe.symm
    · left
      refine List.mem_map.mpr ⟨p, hp, ?_⟩
      simpa [Function.comp, hpk] using hpe
  · rw [List.map_append] at hx
    rcases List.mem_append.mp hx with hleft | hright
    · exact Or.inl hleft
    · right
      simpa using hright

/-- The new value is among the values of the updated registry. -/
theorem self_mem_map_snd_regPut (reg : List (String × RegEntry)) (k : String) (v : RegEntry) :
    v ∈ (regPut reg k v).map Prod.snd := by
  unfold regPut
  split
  · next h =>
      rw [List.map_map]
      obtain ⟨p, hp, hpk⟩ := List.any_eq_true.mp h
      refine List.mem_map.mpr ⟨p, hp, ?_⟩
      simp [Function.comp, hpk]
  · rw [List.map_append]
    exact List.mem_append.mpr (Or.inr (by simp))

/-- Python max over a list all of whose elements are the same value returns
that value. -/
theorem foldl_max_const {α : Type} (key : α → Nat) (v : α) :
    ∀ (xs : List α), (∀ x ∈ xs, x = v) →
      xs.foldl (fun best y => if key y > key best then y else best) v = v := by
  intro xs
  induction xs with
  | nil => intro _; rfl
  | cons y ys ih =>
    intro h
    have hy : y = v := h y (List.mem_cons_self y ys)
    subst hy
    simp only [List.foldl_cons]
    have hsame : (if key y > key y then y else y) = y := by split <;> rfl
    rw [hsame]
    exact ih (fun x hx => h x (List.mem_cons_of_mem y hx))

/-- The function `maxByKey` on a nonempty constant list returns the constant. -/
theorem maxByKey_const {α : Type} (key : α → Nat) (l : List α) (v : α)
    (hne : l ≠ []) (hall : ∀ x ∈ l, x = v) : maxByKey key l = some v := by
  cases l with
  | nil => exact absurd rfl hne
  | cons x xs =>
    have hx : x = v := hall x (List.mem_cons_self x xs)
    subst hx
    have hstep : maxByKey key (x :: xs)
        = some (xs.foldl (fun best y => if key y > key best then y else best) x) := rfl
    rw [hstep, foldl_max_const key x xs (fun y hy => hall y (List.mem_cons_of_mem x hy))]

/-- The character data of a generated checkpoint id starts with the digest
marker: the id is never the empty string. -/
theorem generateCheckpointId_ne_empty (cp : Checkpoint) : ¬ generateCheckpointId cp = "" := by
  intro h
  have h2 : (generateCheckpointId cp).data = "".data := congrArg String.data h
  have h3 : ∃ l : List Char, (generateCheckpointId cp).data = 'h' :: l := ⟨_, rfl⟩
  obtain ⟨l, hl⟩ := h3
  rw [hl] at h2
  exact List.noConfusion h2

/-- A successful `save_checkpoint` means the stage filter matched no
existing registry value, and pins down the returned name, id and state. -/
theorem saveCheckpoint_ok_parts {st : MState} {s d m : String} {t : Nat}
    {f cid : String} {st2 : MState}
    (h : saveCheckpoint st s d m t = Except.ok (f, cid, st2)) :
    ((st.registry.map Prod.snd).filter (stageFilter (some s))).isEmpty = true ∧
    f = saveFileName s t ∧
    cid = generateCheckpointId (saveRecordBase s d m t none) ∧
    st2 = saveResultState st s d m t none := by
  unfold saveCheckpoint getLatestCheckpointId at h
  by_cases hemp : ((st.registry.map Prod.snd).filter (stageFilter (some s))).isEmpty = true
  · simp only [hemp, if_true, Except.ok.injEq, Prod.mk.injEq] at h
    exact ⟨hemp, h.1.symm, h.2.1.symm, h.2.2.symm⟩
  · simp only [Bool.not_eq_true] at hemp
    simp [hemp] at h

/-- The checksum stored in a saved record verifies against the recomputed
checksum of that record. -/
theorem saveRecord_checksum_ok (s d m : String) (t : Nat) (p : Option String) :
    (saveRecord s d m t p).checksum = calcChecksum (saveRecord s d m t p) := rfl

/-- Backing up a previous checkpoint does not change the live directory. -/
theorem backupPreviousCheckpoint_files (s : String) (st : MState) :
    (backupPreviousCheckpoint s st).files = st.files := by
  unfold backupPreviousCheckpoint
  split <;> rfl

/-- Backing up a previous checkpoint does not change the registry. -/
theorem backupPreviousCheckpoint_registry (s : String) (st : MState) :
    (backupPreviousCheckpoint s st).registry = st.registry := by
  unfold backupPreviousCheckpoint
  split <;> rfl

/-- The registry after a successful save is the old registry with the new id
mapped to the new file. -/
theorem saveResultState_registry (st : MState) (s d m : String) (t : Nat) (p : Option String) :
    (saveResultState st s d m t p).registry
      = regPut st.registry (generateCheckpointId (saveRecordBase s d m t p)) ⟨saveFileName s t, s, t⟩ := by
  show regPut (backupPreviousCheckpoint s st).registry _ _ = _
  rw [backupPreviousCheckpoint_registry]

/-- The live directory after a successful save is the old directory with the
new checkpoint file written. -/
theorem saveResultState_files (st : MState) (s d m : String) (t : Nat) (p : Option String) :
    (saveResultState st s d m t p).files
      = putFile st.files ⟨saveFileName s t, FileContent.valid (saveRecord s d m t p), t⟩ := by
  show putFile (backupPreviousCheckpoint s st).files _ = _
  rw [backupPreviousCheckpoint_files]

/-- C2: round-trip.  Whenever `save_checkpoint(s, P)` returns (rather than
raising — see C5 for the KeyError raised when the stage already has a
registered checkpoint), loading the resulting checkpoint by its id, or as
the latest checkpoint of the stage, succeeds, verifies, and yields a
checkpoint whose data field equals P. -/
theorem c2_save_load_roundtrip (st : MState) (s d m : String) (t : Nat)
    (f cid : String) (st2 : MState) (hs : s ≠ "")
    (h : saveCheckpoint st s d m t = Except.ok (f, cid, st2)) :
    ∃ cp : Checkpoint,
      (loadCheckpoint 1 st2 none (some cid)).1 = some cp ∧
      (loadCheckpoint 1 st2 (some s) none).1 = some cp ∧
      cp.data = d := by
  obtain ⟨hemp, hf, hcid, hst⟩ := saveCheckpoint_ok_parts h
  subst hf
  subst hcid
  subst hst
  have hsEmpty : (s == "") = false := beq_eq_false_iff_ne.mpr hs
  have hreg := saveResultState_registry st s d m t none
  have hfiles := saveResultState_files st s d m t none
  have hne : ((generateCheckpointId (saveRecordBase s d m t none)) == "") = false :=
    beq_eq_false_iff_ne.mpr (generateCheckpointId_ne_empty _)
  have hrg : regGet (saveResultState st s d m t none).registry
      (generateCheckpointId (saveRecordBase s d m t none))
      = some ⟨saveFileName s t, s, t⟩ := by
    rw [hreg]
    exact regGet_regPut_self st.registry _ _
  have hfind1 : findCheckpoint (saveResultState st s d m t none) none
      (some (generateCheckpointId (saveRecordBase s d m t none))) = some (saveFileName s t) := by
    unfold findCheckpoint
    simp [hne, hrg]
  have hread : readFile (saveResultState st s d m t none).files (saveFileName s t)
      = some (FileContent.valid (saveRecord s d m t none)) := by
    rw [hfiles]
    exact readFile_putFile st.files ⟨saveFileName s t, FileContent.valid (saveRecord s d m t none), t⟩
  have hck : ((saveRecord s d m t none).checksum == calcChecksum (saveRecord s d m t none)) = true := by
    rw [saveRecord_checksum_ok]
    exact beq_self_eq_true _
  have hvfilter : ∀ x ∈ ((saveResultState st s d m t none).registry.map Prod.snd).filter
      (fun e => e.stage == s), x = (⟨saveFileName s t, s, t⟩ : RegEntry) := by
    intro x hx
    obtain ⟨hxm, hxs⟩ := List.mem_filter.mp hx
    rw [hreg] at hxm
    rcases mem_map_snd_regPut hxm with hold | rfl
    · exfalso
      have hnil : (st.registry.map Prod.snd).filter (stageFilter (some s)) = [] :=
        isEmpty_eq_nil hemp
      have hpred := List.filter_eq_nil_iff.mp hnil x hold
      apply hpred
      show stageFilter (some s) x = true
      simp [stageFilter, hsEmpty, hxs]
    · rfl
  have hvmem : (⟨saveFileName s t, s, t⟩ : RegEntry)
      ∈ ((saveResultState st s d m t none).registry.map Prod.snd).filter (fun e => e.stage == s) := by
    rw [hreg]
    exact List.mem_filter.mpr ⟨self_mem_map_snd_regPut _ _ _, by simp⟩
  have hmax : maxByKey (fun e => e.timestamp)
      (((saveResultState st s d m t none).registry.map Prod.snd).filter (fun e => e.stage == s))
      = some ⟨saveFileName s t, s, t⟩ :=
    maxByKey_const _ _ _ (List.ne_nil_of_mem hvmem) hvfilter
  have hfind2 : findCheckpoint (saveResultState st s d m t none) (some s) none
      = some (saveFileName s t) := by
    unfold findCheckpoint
    simp [hsEmpty, hmax]
  refine ⟨saveRecord s d m t none, ?_, ?_, rfl⟩
  · show (loadCheckpoint (0+1) _ none (some (generateCheckpointId (saveRecordBase s d m t none)))).1
        = some (saveRecord s d m t none)
    rw [loadCheckpoint]
    rw [hfind1]
    simp only [hread, hck, if_true]
  · show (loadCheckpoint (0+1) _ (some s) none).1 = some (saveRecord s d m t none)
    rw [loadCheckpoint]
    rw [hfind2]
    simp only [hread, hck, if_true]

/-- Witness for C2 at a concrete input: saving payload P for stage s on a
fresh store and loading back by id or stage yields P. -/
theorem c2_save_load_roundtrip_witness :
    ("s" : String) ≠ "" ∧
    saveCheckpoint emptyStore "s" "P" "M" 1
      = Except.ok (saveFileName "s" 1,
          generateCheckpointId (saveRecordBase "s" "P" "M" 1 none),
          saveResultState emptyStore "s" "P" "M" 1 none) ∧
    (∃ cp : Checkpoint,
      (loadCheckpoint 1 (saveResultState emptyStore "s" "P" "M" 1 none) none
        (some (generateCheckpointId (saveRecordBase "s" "P" "M" 1 none)))).1 = some cp ∧
      (loadCheckpoint 1 (saveResultState emptyStore "s" "P" "M" 1 none) (some "s") none).1
        = some cp ∧
      cp.data = "P") :=
  ⟨by decide, rfl,
   c2_save_load_roundtrip emptyStore "s" "P" "M" 1 _ _ _ (by decide) rfl⟩

/-- C4 amended.  If any live file matches the stage's glob pattern
`{stage}_*.json` before a save that completes, then a verbatim copy of the
st_mtime-latest such file — which is the stage's own latest checkpoint file
exactly when no other stage's files match the pattern — is present in the
backup area of the post-save state; the backup is taken before the new file
is written, so the previous latest matching file is never destroyed
unbacked. -/
theorem c4_backup_of_latest_glob_match (st : MState) (s d m : String) (t : Nat)
    (latest : FileEntry) (f cid : String) (st2 : MState)
    (hmax : maxByKey (fun g => g.mtime) (st.files.filter (fun g => globMatch s g.name))
      = some latest)
    (h : saveCheckpoint st s d m t = Except.ok (f, cid, st2)) :
    (⟨"backup_" ++ latest.name, latest.content, latest.mtime⟩ : FileEntry) ∈ st2.backups := by
  obtain ⟨-, -, -, hst⟩ := saveCheckpoint_ok_parts h
  subst hst
  have hbk : (saveResultState st s d m t none).backups
      = putFile st.backups ⟨"backup_" ++ latest.name, latest.content, latest.mtime⟩ := by
    show (backupPreviousCheckpoint s st).backups = _
    unfold backupPreviousCheckpoint
    rw [hmax]
  rw [hbk]
  exact putFile_self_mem _ _

/-- Witness for C4 amended: on a store with one orphaned stage-s file, a
save places a backup copy of it before writing the new file. -/
theorem c4_backup_witness :
    maxByKey (fun g => g.mtime) (singleFileState.files.filter (fun g => globMatch "s" g.name))
      = some ⟨"s_1.json", FileContent.garbage "old", 1⟩ ∧
    saveCheckpoint singleFileState "s" "d" "m" 2
      = Except.ok (saveFileName "s" 2,
          generateCheckpointId (saveRecordBase "s" "d" "m" 2 none),
          saveResultState singleFileState "s" "d" "m" 2 none) ∧
    (⟨"backup_s_1.json", FileContent.garbage "old", 1⟩ : FileEntry)
      ∈ (saveResultState singleFileState "s" "d" "m" 2 none).backups :=
  ⟨rfl, rfl,
   c4_backup_of_latest_glob_match singleFileState "s" "d" "m" 2
     ⟨"s_1.json", FileContent.garbage "old", 1⟩ _ _ _ rfl rfl⟩

/-- A load that names no stage leaves the state unchanged and performs no
restore, provided no backup file name begins with backup_None_ (the pattern
the f-string of `_restore_from_backup` produces for a None stage). -/
theorem loadCheckpoint_none_stage (fuel : Nat) (st : MState) (c : Option String)
    (hb : ∀ f ∈ st.backups, strStartsWith f.name "backup_None_" = false) :
    (loadCheckpoint fuel st none c).2.1 = st ∧ (loadCheckpoint fuel st none c).2.2 = 0 := by
  cases fuel with
  | zero => exact ⟨rfl, rfl⟩
  | succ n =>
    have hres : restoreFromBackup st none = (none, st) := by
      unfold restoreFromBackup
      have hnil : st.backups.filter
          (fun f => strStartsWith f.name ("backup_" ++ pyStr none ++ "_")
            && strEndsWith f.name ".json") = [] := by
        refine List.filter_eq_nil_iff.mpr ?_
        intro f hf
        have hpat : ("backup_" ++ pyStr none ++ "_") = "backup_None_" := rfl
        simp [hpat, hb f hf]
      simp only [hnil, maxByKey]
    rw [loadCheckpoint]
    cases hfind : findCheckpoint st none c with
    | none => exact ⟨rfl, rfl⟩
    | some path =>
      cases hrd : readFile st.files path with
      | none => simp [hrd, hres]
      | some fc =>
        cases fc with
        | valid cp =>
          by_cases hck : cp.checksum = calcChecksum cp
          · simp [hrd, hck]
          · simp [hrd, hck, hres]
        | garbage b => simp [hrd, hres]

/-- C7 amended.  Provided no backup file name begins with backup_None_
(that is, no stage is literally named None), a rollback that returns false
mutates nothing: registry, live files and backups are all unchanged. -/
theorem c7_failed_rollback_pure (st : MState) (cid : String)
    (hb : ∀ f ∈ st.backups, strStartsWith f.name "backup_None_" = false)
    (h : (rollbackToCheckpoint st cid).1 = false) :
    (rollbackToCheckpoint st cid).2 = st := by
  have hload := loadCheckpoint_none_stage 2 st (some cid) hb
  unfold rollbackToCheckpoint at h ⊢
  cases hreg : regGet st.registry cid with
  | none => simp [hreg]
  | some info =>
    simp only [hreg] at h ⊢
    cases hres : (loadCheckpoint 2 st none (some cid)).1 with
    | none => simp [hres, hload.1]
    | some cp => simp [hres] at h

/-- Witness for C7 amended: rolling back to an unknown id on a fresh store
returns false and leaves the store exactly as it was. -/
theorem c7_failed_rollback_witness :
    (∀ f ∈ emptyStore.backups, strStartsWith f.name "backup_None_" = false) ∧
    (rollbackToCheckpoint emptyStore "z").1 = false ∧
    (rollbackToCheckpoint emptyStore "z").2 = emptyStore :=
  ⟨by decide, rfl, c7_failed_rollback_pure emptyStore "z" (by decide) rfl⟩

/-- C10 amended.  An id-only load (no stage argument) that fails — missing
file, unparsable file, or checksum mismatch — returns none having performed
no backup restore and leaves the store unchanged, provided no backup file
name begins with backup_None_: the restore lookup interpolates the absent
stage as the literal string None and then matches nothing. -/
theorem c10_id_only_load_no_restore (fuel : Nat) (st : MState) (c : String)
    (hb : ∀ f ∈ st.backups, strStartsWith f.name "backup_None_" = false)
    (h : (loadCheckpoint fuel st none (some c)).1 = none) :
    (loadCheckpoint fuel st none (some c)).2.1 = st ∧
    (loadCheckpoint fuel st none (some c)).2.2 = 0 :=
  loadCheckpoint_none_stage fuel st (some c) hb

/-- Witness for C10 amended: an id-only load of a registry entry whose file
is missing, on a store with no backups, returns none with zero restores and
no mutation. -/
theorem c10_id_only_load_witness :
    (∀ f ∈ missingFileState.backups, strStartsWith f.name "backup_None_" = false) ∧
    (loadCheckpoint 3 missingFileState none (some "c")).1 = none ∧
    (loadCheckpoint 3 missingFileState none (some "c")).2.1 = missingFileState ∧
    (loadCheckpoint 3 missingFileState none (some "c")).2.2 = 0 :=
  ⟨by decide, rfl,
   (c10_id_only_load_no_restore 3 missingFileState "c" (by decide) rfl).1,
   (c10_id_only_load_no_restore 3 missingFileState "c" (by decide) rfl).2⟩

/-- C4 counterexample.  On a store holding a stage-a checkpoint file and a
newer stage-a_b checkpoint file (registry empty, so the save proceeds), a
save for stage a completes, yet the backup area afterwards holds only a copy
of the a_b file — no verbatim copy of the latest stage-a checkpoint file was
placed in the backup area, because the backup glob a_*.json selected the
newer foreign file. -/
theorem c4_backup_misses_stage_file :
    (∃ p, saveCheckpoint globClashState "a" "dx" "mx" 9 = Except.ok p) ∧
    maxByKey (fun g => g.mtime)
      (globClashState.files.filter (fun g => isStageCp "a" g.content))
      = some ⟨"a_5.json", FileContent.valid cpStageA, 5⟩ ∧
    (∀ b ∈ (stateAfter (saveCheckpoint globClashState "a" "dx" "mx" 9) globClashState).backups,
      b.content ≠ FileContent.valid cpStageA) ∧
    (stateAfter (saveCheckpoint globClashState "a" "dx" "mx" 9) globClashState).backups
      = [⟨"backup_a_b_7.json", FileContent.valid cpStageAB, 7⟩] :=
  ⟨⟨_, rfl⟩, rfl, by decide, rfl⟩

/-- C8 counterexample.  `prune_old_checkpoints` groups files by the part of
the file name before the first underscore: on a store with one newer
stage-a file and two stage-a_b files (n = 2 files for stage a_b, bound
k = 1), pruning with max_per_stage 1 leaves zero stage-a_b files live
instead of the one newest. -/
theorem c8_prune_groups_by_name_token :
    (pruneClashState.files.filter (fun f => isStageCp "a_b" f.content)).length = 2 ∧
    (pruneOldCheckpoints 1 pruneClashState).files
      = [⟨"a_9.json", FileContent.valid cpStageA, 9⟩] ∧
    (∀ f ∈ (pruneOldCheckpoints 1 pruneClashState).files, isStageCp "a_b" f.content = false) :=
  ⟨rfl, rfl, by decide⟩

/-- The live directory after the prune removal fold is the original
directory minus exactly the removed names. -/
theorem foldl_archive_files (R : List FileEntry) (st : MState) :
    (R.foldl archiveOne st).files
      = st.files.filter (fun f => !(R.any (fun g => f.name == g.name))) := by
  induction R generalizing st with
  | nil => simp
  | cons r R ih =>
    rw [List.foldl_cons, ih]
    rw [show (archiveOne st r).files = st.files.filter (fun g => !(g.name == r.name)) from rfl]
    rw [List.filter_filter]
    apply List.filter_congr
    intro a _
    simp [List.any_cons, Bool.not_or, Bool.and_comm]

/-- The registry after the prune removal fold is the original registry minus
every entry pointing at a removed name. -/
theorem foldl_archive_registry (R : List FileEntry) (st : MState) :
    (R.foldl archiveOne st).registry
      = st.registry.filter (fun p => !(R.any (fun g => p.2.file == g.name))) := by
  induction R generalizing st with
  | nil => simp
  | cons r R ih =>
    rw [List.foldl_cons, ih]
    rw [show (archiveOne st r).registry = st.registry.filter (fun p => !(p.2.file == r.name)) from rfl]
    rw [List.filter_filter]
    apply List.filter_congr
    intro a _
    simp [List.any_cons, Bool.not_or, Bool.and_comm]

/-- Appending to the same string on the left is cancellative. -/
theorem strAppend_left_cancel {p a b : String} (h : p ++ a = p ++ b) : a = b := by
  cases p with
  | mk lp =>
    cases a with
    | mk la =>
      cases b with
      | mk lb =>
        have h2 : lp ++ la = lp ++ lb := congrArg String.data h
        exact congrArg String.mk (List.append_cancel_left h2)

/-- A backup entry survives the prune removal fold when no removed file
produces its pruned name. -/
theorem foldl_archive_backups_preserve (R : List FileEntry) (st : MState) (e : FileEntry)
    (he : e ∈ st.backups) (hne : ∀ f ∈ R, ¬ ("pruned_" ++ f.name = e.name)) :
    e ∈ (R.foldl archiveOne st).backups := by
  induction R generalizing st with
  | nil => exact he
  | cons r R ih =>
    rw [List.foldl_cons]
    apply ih
    · refine putFile_mem_of_ne _ he ?_
      intro hc
      exact hne r (List.mem_cons_self r R) (by rw [hc])
    · intro f hf
      exact hne f (List.mem_cons_of_mem r hf)

/-- Every removed file has its pruned copy in the backup directory after the
fold, provided the removed names are distinct. -/
theorem foldl_archive_backups_mem (R : List FileEntry) (st : MState)
    (hnd : (R.map (fun f => f.name)).Nodup) :
    ∀ f ∈ R, (⟨"pruned_" ++ f.name, f.content, f.mtime⟩ : FileEntry)
      ∈ (R.foldl archiveOne st).backups := by
  induction R generalizing st with
  | nil => intro f hf; cases hf
  | cons r R ih =>
    intro f hf
    rw [List.map_cons] at hnd
    obtain ⟨hhead, htail⟩ := List.nodup_cons.mp hnd
    rw [List.foldl_cons]
    rcases List.mem_cons.mp hf with rfl | hfR
    · apply foldl_archive_backups_preserve
      · exact putFile_self_mem st.backups ⟨"pruned_" ++ f.name, f.content, f.mtime⟩
      · intro g hg hc
        have hgf : g.name = f.name := strAppend_left_cancel hc
        exact hhead (hgf ▸ List.mem_map.mpr ⟨g, hg, rfl⟩)
    · exact ih (archiveOne st r) htail f hfR

/-- Every element of a list appears among its first-occurrence keys. -/
theorem mem_firstKeys {x : String} : ∀ {l : List String}, x ∈ l → x ∈ firstKeys l := by
  intro l
  induction l with
  | nil => intro h; cases h
  | cons k ks ih =>
    intro h
    rcases List.mem_cons.mp h with rfl | htail
    · exact List.mem_cons_self _ _
    · by_cases hxk : x = k
      · subst hxk
        exact List.mem_cons_self _ _
      · refine List.mem_cons_of_mem _ (List.mem_filter.mpr ⟨ih htail, ?_⟩)
        simp [hxk]

/-- The first-occurrence keys of a list contain no duplicates. -/
theorem firstKeys_nodup : ∀ (l : List String), (firstKeys l).Nodup := by
  intro l
  induction l with
  | nil => exact List.nodup_nil
  | cons k ks ih =>
    rw [show firstKeys (k :: ks) = k :: (firstKeys ks).filter (fun x => !(x == k)) from rfl]
    refine List.nodup_cons.mpr ⟨?_, List.Nodup.filter _ ih⟩
    intro hmem
    have := (List.mem_filter.mp hmem).2
    simp at this

/-- Membership in a concatenation of per-key lists. -/
theorem mem_catMap {β : Type} {g : String → List β} {y : β} :
    ∀ {ks : List String}, y ∈ catMap ks g ↔ ∃ k ∈ ks, y ∈ g k := by
  intro ks
  induction ks with
  | nil => simp [catMap]
  | cons k0 ks ih =>
    rw [show catMap (k0 :: ks) g = g k0 ++ catMap ks g from rfl]
    constructor
    · intro h
      rcases List.mem_append.mp h with h1 | h2
      · exact ⟨k0, List.mem_cons_self _ _, h1⟩
      · obtain ⟨k, hk, hy⟩ := ih.mp h2
        exact ⟨k, List.mem_cons_of_mem _ hk, hy⟩
    · rintro ⟨k, hk, hy⟩
      rcases List.mem_cons.mp hk with rfl | hks
      · exact List.mem_append.mpr (Or.inl hy)
      · exact List.mem_append.mpr (Or.inr (ih.mpr ⟨k, hks, hy⟩))

/-- A file in the removal slice of a group comes from the original directory
and carries that group's key. -/
theorem mem_part_key {files : List FileEntry} {m : Nat} {k : String} {x : FileEntry}
    (hx : x ∈ (sortByMtimeDesc (files.filter (fun f => stageKey f.name == k))).drop m) :
    x ∈ files ∧ stageKey x.name = k := by
  have hx2 : x ∈ sortByMtimeDesc (files.filter (fun f => stageKey f.name == k)) :=
    List.mem_of_mem_drop hx
  rw [show sortByMtimeDesc (files.filter (fun f => stageKey f.name == k))
      = List.insertionSort (fun a b => b.mtime ≤ a.mtime)
          (files.filter (fun f => stageKey f.name == k)) from rfl] at hx2
  have hx3 : x ∈ files.filter (fun f => stageKey f.name == k) :=
    (List.perm_insertionSort _ _).mem_iff.mp hx2
  obtain ⟨hxm, hxk⟩ := List.mem_filter.mp hx3
  exact ⟨hxm, by simpa using hxk⟩

/-- Filtering a concatenation of key-homogeneous parts by one key selects
exactly that key's part. -/
theorem filter_catMap_parts (g : String → List FileEntry)
    (hkey : ∀ k' x, x ∈ g k' → stageKey x.name = k') :
    ∀ (ks : List String), ks.Nodup → ∀ k,
      (catMap ks g).filter (fun f => stageKey f.name == k)
        = if k ∈ ks then g k else [] := by
  intro ks
  induction ks with
  | nil =>
    intro _ k
    simp [catMap]
  | cons k0 ks ih =>
    intro hnd k
    obtain ⟨hhead, htail⟩ := List.nodup_cons.mp hnd
    rw [show catMap (k0 :: ks) g = g k0 ++ catMap ks g from rfl, List.filter_append]
    by_cases hkk : k = k0
    · subst hkk
      have hself : (g k).filter (fun f => stageKey f.name == k) = g k := by
        refine List.filter_eq_self.mpr ?_
        intro x hx
        simp [hkey k x hx]
      rw [hself, ih htail k, if_neg hhead, List.append_nil, if_pos (List.mem_cons_self _ _)]
    · have hmiss : (g k0).filter (fun f => stageKey f.name == k) = [] := by
        refine List.filter_eq_nil_iff.mpr ?_
        intro x hx hc
        have hx0 : stageKey x.name = k0 := hkey k0 x hx
        rw [hx0] at hc
        exact hkk (eq_of_beq hc).symm
      rw [hmiss, List.nil_append, ih htail k]
      by_cases hk : k ∈ ks
      · rw [if_pos hk, if_pos (List.mem_cons_of_mem _ hk)]
      · rw [if_neg hk, if_neg (by simp [List.mem_cons, hkk, hk])]

/-- The removal list restricted to one grouping key is exactly everything
beyond the max_per_stage newest files of that group. -/
theorem pruneRemovalList_filter_key (m : Nat) (files : List FileEntry) (k : String) :
    (pruneRemovalList m files).filter (fun f => stageKey f.name == k)
      = (sortByMtimeDesc (files.filter (fun f => stageKey f.name == k))).drop m := by
  unfold pruneRemovalList
  rw [filter_catMap_parts
      (fun k => (sortByMtimeDesc (files.filter (fun f => stageKey f.name == k))).drop m)
      (fun k' x hx => (mem_part_key hx).2)
      (firstKeys (files.map (fun f => stageKey f.name))) (firstKeys_nodup _) k]
  by_cases hk : k ∈ firstKeys (files.map (fun f => stageKey f.name))
  · rw [if_pos hk]
  · rw [if_neg hk]
    have hempty : files.filter (fun f => stageKey f.name == k) = [] := by
      refine List.filter_eq_nil_iff.mpr ?_
      intro x hx hc
      apply hk
      have hxk : stageKey x.name = k := by simpa using hc
      exact mem_firstKeys (hxk ▸ List.mem_map.mpr ⟨x, hx, rfl⟩)
    rw [hempty]
    simp [sortByMtimeDesc]

/-- The names in one group's removal slice are distinct whenever all live
file names are. -/
theorem part_names_nodup (m : Nat) (files : List FileEntry)
    (h : (files.map (fun f => f.name)).Nodup) (k : String) :
    (((sortByMtimeDesc (files.filter (fun f => stageKey f.name == k))).drop m).map
      (fun f => f.name)).Nodup := by
  have h1 : ((files.filter (fun f => stageKey f.name == k)).map (fun f => f.name)).Nodup :=
    List.Nodup.sublist (List.Sublist.map _ (List.filter_sublist files)) h
  have hperm : List.Perm
      ((List.insertionSort (fun a b => b.mtime ≤ a.mtime)
        (files.filter (fun f => stageKey f.name == k))).map (fun f => f.name))
      ((files.filter (fun f => stageKey f.name == k)).map (fun f => f.name)) :=
    (List.perm_insertionSort _ _).map _
  have h2 : ((sortByMtimeDesc (files.filter (fun f => stageKey f.name == k))).map
      (fun f => f.name)).Nodup := hperm.nodup_iff.mpr h1
  exact List.Nodup.sublist (List.Sublist.map _ (List.drop_sublist m _)) h2

/-- The names across the whole concatenation of removal slices are
distinct. -/
theorem catMap_names_nodup (g : String → List FileEntry)
    (hkey : ∀ k' x, x ∈ g k' → stageKey x.name = k')
    (hpart : ∀ k', ((g k').map (fun f => f.name)).Nodup) :
    ∀ ks : List String, ks.Nodup → ((catMap ks g).map (fun f => f.name)).Nodup := by
  intro ks
  induction ks with
  | nil =>
    intro _
    simp [catMap]
  | cons k0 ks ih =>
    intro hnd
    obtain ⟨hhead, htail⟩ := List.nodup_cons.mp hnd
    rw [show catMap (k0 :: ks) g = g k0 ++ catMap ks g from rfl, List.map_append]
    refine List.Nodup.append (hpart k0) (ih htail) ?_
    intro n hn1 hn2
    obtain ⟨x, hx, hxn⟩ := List.mem_map.mp hn1
    obtain ⟨y, hy, hyn⟩ := List.mem_map.mp hn2
    obtain ⟨k', hk', hyk⟩ := mem_catMap.mp hy
    have h1 : stageKey x.name = k0 := hkey k0 x hx
    have h2 : stageKey y.name = k' := hkey k' y hyk
    have hxy : y.name = x.name := by rw [hxn, hyn]
    rw [hxy, h1] at h2
    exact hhead (h2 ▸ hk')

/-- The removal list of a prune has pairwise distinct names whenever the
live directory does. -/
theorem pruneRemovalList_names_nodup (m : Nat) (files : List FileEntry)
    (h : (files.map (fun f => f.name)).Nodup) :
    ((pruneRemovalList m files).map (fun f => f.name)).Nodup := by
  unfold pruneRemovalList
  exact catMap_names_nodup
    (fun k => (sortByMtimeDesc (files.filter (fun f => stageKey f.name == k))).drop m)
    (fun k' x hx => (mem_part_key hx).2)
    (fun k' => part_names_nodup m files h k')
    (firstKeys (files.map (fun f => stageKey f.name))) (firstKeys_nodup _)

/-- C8 amended.  For a live directory with distinct file names, pruning with
bound maxPerStage: (i) leaves live exactly the files whose name is not in
the removal list; (ii) places a byte-identical pruned_ copy of every removed
file in the backup area; (iii) removes from the registry exactly the entries
whose file field names a removed file; and (iv) the removal list restricted
to each grouping key — the file-name prefix before the first underscore,
which coincides with the stage only for underscore-free stage names — is
everything beyond the maxPerStage newest files of that group in stable
descending modification-time order.  No checkpoint bytes are destroyed:
removed files are moved, not deleted. -/
theorem c8_prune_retention (m : Nat) (st : MState)
    (h : (st.files.map (fun f => f.name)).Nodup) :
    (pruneOldCheckpoints m st).files
      = st.files.filter
          (fun f => !((pruneRemovalList m st.files).any (fun g => f.name == g.name))) ∧
    (∀ f ∈ pruneRemovalList m st.files,
      (⟨"pruned_" ++ f.name, f.content, f.mtime⟩ : FileEntry)
        ∈ (pruneOldCheckpoints m st).backups) ∧
    (pruneOldCheckpoints m st).registry
      = st.registry.filter
          (fun p => !((pruneRemovalList m st.files).any (fun g => p.2.file == g.name))) ∧
    (∀ k, (pruneRemovalList m st.files).filter (fun f => stageKey f.name == k)
      = (sortByMtimeDesc (st.files.filter (fun f => stageKey f.name == k))).drop m) :=
  ⟨foldl_archive_files _ _,
   foldl_archive_backups_mem _ _ (pruneRemovalList_names_nodup m st.files h),
   foldl_archive_registry _ _,
   fun k => pruneRemovalList_filter_key m st.files k⟩

/-- Witness for C8 amended at a concrete store: two files in one group,
bound 1 — the older file is removed, its pruned copy appears in the backups,
its registry entry is dropped, and the removal slice is the drop-1 of the
descending-mtime order. -/
theorem c8_prune_retention_witness :
    (pruneTwoState.files.map (fun f => f.name)).Nodup ∧
    ((pruneOldCheckpoints 1 pruneTwoState).files
      = pruneTwoState.files.filter
          (fun f => !((pruneRemovalList 1 pruneTwoState.files).any (fun g => f.name == g.name))) ∧
    (∀ f ∈ pruneRemovalList 1 pruneTwoState.files,
      (⟨"pruned_" ++ f.name, f.content, f.mtime⟩ : FileEntry)
        ∈ (pruneOldCheckpoints 1 pruneTwoState).backups) ∧
    (pruneOldCheckpoints 1 pruneTwoState).registry
      = pruneTwoState.registry.filter
          (fun p => !((pruneRemovalList 1 pruneTwoState.files).any (fun g => p.2.file == g.name))) ∧
    (∀ k, (pruneRemovalList 1 pruneTwoState.files).filter (fun f => stageKey f.name == k)
      = (sortByMtimeDesc (pruneTwoState.files.filter (fun f => stageKey f.name == k))).drop 1)) :=
  ⟨by decide, c8_prune_retention 1 pruneTwoState (by decide)⟩
